import Mathlib

/-!
Verification development for the PSBT parser (src/src/main.rs).

The core under scrutiny is `parse_psbt` (main.rs lines 44-138) together with
the network handling of `deserialize_network` (lines 19-32) and
`function_handler` (lines 156-163).

Modelling conventions:

* We embed the program at the level of the decoded PSBT document: the base64
  decoding and BIP-174 binary deserialization are calls into the external
  `base64` / `rust-bitcoin` libraries, and every claim quantifies over "a
  structurally valid PSBT", i.e. over the decoded document.  The BIP-174
  deserializer guarantees that the number of per-input maps equals the number
  of inputs of the embedded unsigned transaction; that invariant is carried as
  a proof field of `Psbt`, so the (always in range) indexing
  `tx.input[index]` of main.rs line 68/102 is total here.
* Machine integers: `value` fields are Rust `u64`; arithmetic on them in
  release mode wraps modulo 2^64 (the spec's design note 9 records that the
  original fee subtraction underflows/wraps).  Sums and the fee subtraction
  are therefore taken modulo `U64 = 2^64`.
* Rust panics (out-of-range `[]` indexing, `Option::unwrap` on `None`) are a
  distinct observable outcome, modelled by the `ParseResult.panic`
  constructor; `return Err(..)` is `ParseResult.err`.
* The txid (double-SHA256 of the canonical serialization, line 60) is an
  opaque hash no claim touches; it is not part of the modelled summary.
* `Address::from_script` and `Network::from_str` live in the external
  rust-bitcoin library; spec section 9 treats them as explicit algorithms
  (section 4.4: template recognition over the standard families).  They are
  modelled below at that level: `payloadFromScript` recognizes the standard
  script templates, and an `Address` is the pair (payload, network).  The
  final base58/bech32 string rendering (`to_string`) is a deterministic
  injective display step that no claim inspects, so addresses are compared as
  (payload, network) pairs.
-/

/-- The 2^64 modulus of Rust `u64` arithmetic. -/
def U64 : Nat := 2 ^ 64

/-- Wrapping `u64` subtraction: `a.wrapping_sub b` for `a b : u64`.
This is what `input_amount - outputs_sum` at main.rs line 117 computes in
release mode when the subtraction underflows. -/
def u64sub (a b : Nat) : Nat := (a % U64 + U64 - b % U64) % U64

/-- Network selector (`bitcoin::Network`): mainnet, testnet, signet, regtest. -/
inductive Network where
  | bitcoin
  | testnet
  | signet
  | regtest
deriving DecidableEq, Repr

/-- A transaction output: value in satoshis (`u64`) plus script-pubkey bytes. -/
structure TxOut where
  value : Nat
  script_pubkey : List Nat
deriving DecidableEq, Repr

/-- Reference to the spent output: previous transaction id (32 bytes, opaque
here) and output index `vout` (`u32`). -/
structure OutPoint where
  txid : List Nat
  vout : Nat
deriving DecidableEq, Repr

/-- A transaction input of the unsigned transaction; the core reads only its
`previous_output` prevout reference. -/
structure TxIn where
  previous_output : OutPoint
deriving DecidableEq, Repr

/-- The embedded unsigned transaction: ordered inputs and ordered outputs. -/
structure Transaction where
  input : List TxIn
  output : List TxOut
deriving DecidableEq, Repr

/-- One per-input map of the PSBT document: the optional witness-UTXO record
(a single spent output) and the optional non-witness-UTXO record (the full
previous transaction). -/
structure PsbtInput where
  witness_utxo : Option TxOut
  non_witness_utxo : Option Transaction
deriving DecidableEq, Repr

instance : Inhabited PsbtInput := ⟨⟨none, none⟩⟩

/-- A structurally valid decoded PSBT document.  The field `h_inputs` is the
BIP-174 framing invariant enforced by the deserializer (spec section 3): one
per-input map per transaction input. -/
structure Psbt where
  unsigned_tx : Transaction
  inputs : List PsbtInput
  h_inputs : inputs.length = unsigned_tx.input.length

/-- The script-template payload of an address, one case per standard template
family (spec section 4.4, design note: "a sum type with one case per template
plus an unrecognized case" - the unrecognized case is `Option.none` of
`payloadFromScript`). -/
inductive Payload where
  | pubkeyHash : List Nat → Payload
  | scriptHash : List Nat → Payload
  | witnessProgram : Nat → List Nat → Payload
deriving DecidableEq, Repr

/-- A network-qualified address: two addresses are equal only if derived under
the same network selector (spec section 3). -/
structure Address where
  payload : Payload
  network : Network
deriving DecidableEq, Repr

/-- Script is the pay-to-pubkey-hash template:
`OP_DUP OP_HASH160 <20 bytes> OP_EQUALVERIFY OP_CHECKSIG`. -/
def isP2pkh (s : List Nat) : Bool :=
  s.length == 25 && s.getD 0 0 == 0x76 && s.getD 1 0 == 0xa9 &&
    s.getD 2 0 == 0x14 && s.getD 23 0 == 0x88 && s.getD 24 0 == 0xac

/-- Script is the pay-to-script-hash template:
`OP_HASH160 <20 bytes> OP_EQUAL`. -/
def isP2sh (s : List Nat) : Bool :=
  s.length == 23 && s.getD 0 0 == 0xa9 && s.getD 1 0 == 0x14 &&
    s.getD 22 0 == 0x87

/-- Script is a segwit program: a version opcode (`OP_0` or `OP_1`..`OP_16`)
followed by a single 2-40 byte push (covers pay-to-witness-pubkey-hash,
pay-to-witness-script-hash and pay-to-taproot). -/
def isWitnessProgram (s : List Nat) : Bool :=
  4 ≤ s.length && s.length ≤ 42 &&
    (s.getD 0 0 == 0 || (0x51 ≤ s.getD 0 0 && s.getD 0 0 ≤ 0x60)) &&
    s.getD 1 0 == s.length - 2

/-- Witness version encoded by the leading opcode byte. -/
def witnessVersionFromOpcode (b : Nat) : Option Nat :=
  if b == 0 then some 0
  else if 0x51 ≤ b && b ≤ 0x60 then some (b - 0x50)
  else none

/-- Template recognition of the address codec (spec section 4.4): classify a
script-pubkey into one of the standard template families, or `none` when the
script matches no known spending template. -/
def payloadFromScript (s : List Nat) : Option Payload :=
  if isP2pkh s then some (Payload.pubkeyHash ((s.drop 3).take 20))
  else if isP2sh s then some (Payload.scriptHash ((s.drop 2).take 20))
  else if isWitnessProgram s then
    (witnessVersionFromOpcode (s.getD 0 0)).map
      (fun v => Payload.witnessProgram v (s.drop 2))
  else none

/-- Model of `Address::from_script(script, network)`: `Some` address exactly
when the script matches a known template; the network selector qualifies the
resulting address. -/
def addressFromScript (s : List Nat) (network : Network) : Option Address :=
  (payloadFromScript s).map (fun p => ⟨p, network⟩)

/-- Model of `psbt.clone().extract_tx()` (main.rs line 57): the unsigned
transaction already embedded in the global map.  `extract_tx` only moves the
per-input signature material into the transaction; the prevouts and outputs
the core reads are unchanged (spec section 4.2: a named view, not a
transformation). -/
def extract_tx (p : Psbt) : Transaction := p.unsigned_tx

/-- The UTXO resolver for input `index` (the closure of main.rs lines 67-78,
repeated verbatim at lines 101-112):

    let prevout = tx.input[index].previous_output;
    input.witness_utxo.as_ref()
        .or_else(|| input.non_witness_utxo.as_ref()?
                        .output.get(prevout.vout as usize))

The `tx.input[index]` indexing is total here because `index` ranges over the
per-input maps and `Psbt.h_inputs` makes it in range; `.get` is the checked
lookup `List.get?`. -/
def resolveUtxo (tx : Transaction) (index : Nat) (input : PsbtInput) :
    Option TxOut :=
  let prevout := (tx.input.getD index ⟨⟨[], 0⟩⟩).previous_output
  input.witness_utxo.orElse
    (fun _ => input.non_witness_utxo.bind
      (fun prev => prev.output.get? prevout.vout))

/-- The `input_addresses` pipeline of main.rs lines 63-83:
enumerate the per-input maps, resolve each spent output, derive its address,
drop inputs that did not resolve (first `filter_map`), then drop resolved
inputs whose script has no representable address (second `filter_map`). -/
def inputAddresses (p : Psbt) (network : Network) : List Address :=
  (p.inputs.enum.filterMap
      (fun x => (resolveUtxo p.unsigned_tx x.1 x.2).map
        (fun output => addressFromScript output.script_pubkey network))).filterMap
    id

/-- Exact (unbounded integer) sum of the values of the inputs that resolved:
the mathematical value of the `input_amount` iterator of main.rs lines
97-115 before `u64` wrapping. -/
def resolvedInputSum (p : Psbt) : Nat :=
  (p.inputs.enum.filterMap
      (fun x => (resolveUtxo p.unsigned_tx x.1 x.2).map TxOut.value)).sum

/-- Exact (unbounded integer) sum of all output values. -/
def trueOutputSum (tx : Transaction) : Nat :=
  (tx.output.map TxOut.value).sum

/-- `input_amount` (main.rs lines 97-115): `u64` sum of the resolved input
values; each `u64` addition wraps, so the result is the exact sum mod 2^64. -/
def inputAmount (p : Psbt) : Nat := resolvedInputSum p % U64

/-- The `u64` sum of all output values (main.rs line 117, right operand). -/
def outputSum (tx : Transaction) : Nat := trueOutputSum tx % U64

/-- One `pay_to_info` entry: `{"amount": output.value, "pay_to": address}`. -/
structure PayTo where
  amount : Nat
  pay_to : Address
deriving DecidableEq, Repr

/-- The `pay_to_info` loop of main.rs lines 119-126.  Each output's address is
obtained by `Address::from_script(..).unwrap()`: an output whose script has no
representable address makes the whole computation `none`, which `parse_psbt`
turns into a panic. -/
def payToInfo (tx : Transaction) (network : Network) : Option (List PayTo) :=
  tx.output.mapM
    (fun output => (addressFromScript output.script_pubkey network).map
      (fun a => ⟨output.value, a⟩))

/-- The summary record assembled at main.rs lines 128-135 (the opaque txid
hash aside). -/
structure Summary where
  send_address : Address
  input_addresses : List Address
  fee : Nat
  total_amount : Nat
  pay_to_info : List PayTo
deriving DecidableEq, Repr

/-- Which Rust panic fired. -/
inductive PanicKind where
  | indexOutOfBounds
  | unwrapNone
deriving DecidableEq, Repr

/-- The Rust-level errors `parse_psbt` can return. -/
inductive ParseError where
  | invalidOutputAddress
deriving DecidableEq, Repr

/-- Observable outcome of `parse_psbt`: a summary, a returned `Err`, or a
Rust panic (which is not a returned error). -/
inductive ParseResult where
  | ok : Summary → ParseResult
  | err : ParseError → ParseResult
  | panic : PanicKind → ParseResult
deriving DecidableEq, Repr

/-- Model of `parse_psbt` (main.rs lines 44-138) on a decoded, structurally
valid PSBT document.  Mirrors the source order: default the network to
mainnet, extract the transaction, build `input_addresses`, index output 0
(panicking when there is none), derive its address (returning `Err` when it
has none), compute the wrapping fee, then build `pay_to_info` (panicking on an
unrepresentable output script). -/
def parse_psbt (p : Psbt) (network : Option Network) : ParseResult :=
  let network := network.getD Network.bitcoin
  let tx := extract_tx p
  let input_addresses := inputAddresses p network
  match tx.output.get? 0 with
  | none => ParseResult.panic PanicKind.indexOutOfBounds
  | some output =>
    match addressFromScript output.script_pubkey network with
    | none => ParseResult.err ParseError.invalidOutputAddress
    | some address =>
      let fee := u64sub (inputAmount p) (outputSum tx)
      match payToInfo tx network with
      | none => ParseResult.panic PanicKind.unwrapNone
      | some pay_to_info =>
        ParseResult.ok
          { send_address := address
            input_addresses := input_addresses
            fee := fee
            total_amount := output.value
            pay_to_info := pay_to_info }

/-- Model of `Network::from_str` of the external rust-bitcoin library as the
spec's section 6 describes the recognized selectors: "bitcoin"/"mainnet",
"testnet", "signet", "regtest"; anything else fails to parse. -/
def networkFromStr (s : String) : Option Network :=
  if s = "bitcoin" ∨ s = "mainnet" then some Network.bitcoin
  else if s = "testnet" then some Network.testnet
  else if s = "signet" then some Network.signet
  else if s = "regtest" then some Network.regtest
  else none

/-- Model of `deserialize_network` (main.rs lines 19-32): an absent selector
is accepted as `none`; a present selector that fails to parse is a
deserialization error. -/
def deserialize_network (s : Option String) : Except Unit (Option Network) :=
  match s with
  | none => Except.ok none
  | some s =>
    match networkFromStr s with
    | some n => Except.ok (some n)
    | none => Except.error ()

/-- The network handling of `function_handler` (main.rs line 161):

    lambda_request.network.map(|n| n.parse().unwrap_or(Network::Testnet))

an unparseable selector is silently replaced by `Network::Testnet`. -/
def handlerNetwork (s : Option String) : Option Network :=
  s.map (fun n => (networkFromStr n).getD Network.testnet)

/-- Replace the `i`-th per-input map of a PSBT (used to state that the parse
result is insensitive to data the resolver never consults). -/
def setInput (p : Psbt) (i : Nat) (inp : PsbtInput) : Psbt :=
  ⟨p.unsigned_tx, p.inputs.set i inp, by rw [List.length_set]; exact p.h_inputs⟩

/-- Modelled from the spec (section 4.6): the `input_addresses` field is "the
ordered list of resolved input addresses (entries with no resolvable address
are simply omitted, not replaced by a placeholder)", with no deduplication.
One traversal in input order; an input contributes exactly when its spent
output resolves and its script has a representable address. -/
def specInputAddresses (p : Psbt) (network : Network) : List Address :=
  p.inputs.enum.filterMap
    (fun x => (resolveUtxo p.unsigned_tx x.1 x.2).bind
      (fun output => addressFromScript output.script_pubkey network))

/-! ## Concrete documents used as witnesses, counterexamples and failing
inputs.  `wpkhScript` is a version-0, 20-byte witness program (the
pay-to-witness-pubkey-hash template); `opReturnScript` is a bare `OP_RETURN`,
which matches no address template. -/

def wpkhScript : List Nat := 0 :: 20 :: List.replicate 20 1

def wpkhScript2 : List Nat := 0 :: 20 :: List.replicate 20 2

def opReturnScript : List Nat := [0x6a]

def wpkhAddr : Address :=
  ⟨Payload.witnessProgram 0 (List.replicate 20 1), Network.bitcoin⟩

def wpkhAddr2 : Address :=
  ⟨Payload.witnessProgram 0 (List.replicate 20 2), Network.bitcoin⟩

def dummyIn : TxIn := ⟨⟨[], 0⟩⟩

/-- One fully resolvable input worth 0 sat, one output worth 1 sat: output
total exceeds input total, so the `u64` fee subtraction underflows. -/
def cxUnderflow : Psbt :=
  ⟨⟨[dummyIn], [⟨1, wpkhScript⟩]⟩, [⟨some ⟨0, wpkhScript⟩, none⟩], rfl⟩

def cxUnderflowSummary : Summary :=
  { send_address := wpkhAddr
    input_addresses := [wpkhAddr]
    fee := U64 - 1
    total_amount := 1
    pay_to_info := [⟨1, wpkhAddr⟩] }

/-- One resolvable input worth 100 sat, outputs totalling 600 sat: the fee
wraps to `2^64 - 500`. -/
def cxExcess : Psbt :=
  ⟨⟨[dummyIn], [⟨500, wpkhScript⟩, ⟨100, wpkhScript2⟩]⟩,
   [⟨some ⟨100, wpkhScript⟩, none⟩], rfl⟩

def cxExcessSummary : Summary :=
  { send_address := wpkhAddr
    input_addresses := [wpkhAddr]
    fee := U64 - 500
    total_amount := 500
    pay_to_info := [⟨500, wpkhAddr⟩, ⟨100, wpkhAddr2⟩] }

/-- Two inputs; input 0 has neither witness-UTXO nor non-witness-UTXO data and
cannot resolve, input 1 resolves to 1000 sat; single 400 sat output. -/
def cxPartial : Psbt :=
  ⟨⟨[dummyIn, dummyIn], [⟨400, wpkhScript⟩]⟩,
   [⟨none, none⟩, ⟨some ⟨1000, wpkhScript⟩, none⟩], rfl⟩

def cxPartialSummary : Summary :=
  { send_address := wpkhAddr
    input_addresses := [wpkhAddr]
    fee := 600
    total_amount := 400
    pay_to_info := [⟨400, wpkhAddr⟩] }

/-- Resolvable input; output 0 representable, output 1 an `OP_RETURN` script
with no representable address. -/
def cxOpReturn : Psbt :=
  ⟨⟨[dummyIn], [⟨500, wpkhScript⟩, ⟨100, opReturnScript⟩]⟩,
   [⟨some ⟨1000, wpkhScript⟩, none⟩], rfl⟩

/-- The spec's section 8 scenario: one input with a 10000 sat witness-UTXO,
outputs of 9000 and 500 sat. -/
def goodPsbt : Psbt :=
  ⟨⟨[dummyIn], [⟨9000, wpkhScript⟩, ⟨500, wpkhScript2⟩]⟩,
   [⟨some ⟨10000, wpkhScript⟩, none⟩], rfl⟩

def goodSummary : Summary :=
  { send_address := wpkhAddr
    input_addresses := [wpkhAddr]
    fee := 500
    total_amount := 9000
    pay_to_info := [⟨9000, wpkhAddr⟩, ⟨500, wpkhAddr2⟩] }

/-- An unrelated previous transaction, used to perturb the non-witness-UTXO
field of an input that already carries a witness-UTXO. -/
def junkTx : Transaction := ⟨[], [⟨77, wpkhScript2⟩]⟩

/-- Input 1 carries only a non-witness-UTXO whose previous transaction has a
single output, while the prevout index of input 1 is 5: the positional lookup
is out of range.  Input 0 resolves normally. -/
def gapPsbt : Psbt :=
  ⟨⟨[dummyIn, ⟨⟨[], 5⟩⟩], [⟨400, wpkhScript⟩]⟩,
   [⟨some ⟨1000, wpkhScript⟩, none⟩, ⟨none, some ⟨[], [⟨700, wpkhScript2⟩]⟩⟩],
   rfl⟩

/-- A structurally valid PSBT whose embedded transaction has no outputs. -/
def emptyOutPsbt : Psbt := ⟨⟨[], []⟩, [], rfl⟩

def fooStr : String := "foo"

/-! ## Shared list lemmas

`inputAddresses` and `resolvedInputSum` both traverse `p.inputs.enum` with a
`filterMap`.  The congruence lemma below shows that replacing one element of
the list by another on which the traversal function agrees leaves the result
unchanged; it is the engine behind the "other inputs are unaffected"
statements. -/

theorem filterMap_enumFrom_set {α β : Type} (f : Nat × α → Option β) :
    ∀ (l : List α) (n i : Nat) (x : α),
      (∀ h : i < l.length, f (n + i, x) = f (n + i, l.get ⟨i, h⟩)) →
      ((l.set i x).enumFrom n).filterMap f = (l.enumFrom n).filterMap f := by
  intro l
  induction l with
  | nil => intro n i x _; rfl
  | cons a as ih =>
    intro n i x hx
    cases i with
    | zero =>
      have h0 : f (n, x) = f (n, a) := by
        have := hx (Nat.succ_pos as.length)
        simpa using this
      show ((n, x) :: List.enumFrom (n + 1) as).filterMap f =
        ((n, a) :: List.enumFrom (n + 1) as).filterMap f
      rw [List.filterMap_cons, List.filterMap_cons, h0]
    | succ j =>
      show ((n, a) :: List.enumFrom (n + 1) (as.set j x)).filterMap f =
        ((n, a) :: List.enumFrom (n + 1) as).filterMap f
      rw [List.filterMap_cons, List.filterMap_cons,
        ih (n + 1) j x (fun h => by
          have hx2 := hx (Nat.succ_lt_succ h)
          have e : n + (j + 1) = n + 1 + j := by omega
          rw [e] at hx2
          exact hx2)]

theorem filterMap_enum_set {α β : Type} (f : Nat × α → Option β)
    (l : List α) (i : Nat) (x : α)
    (hx : ∀ h : i < l.length, f (i, x) = f (i, l.get ⟨i, h⟩)) :
    ((l.set i x).enum).filterMap f = (l.enum).filterMap f :=
  filterMap_enumFrom_set f l 0 i x (fun h => by simpa using hx h)

theorem inputAddresses_setInput (p : Psbt) (i : Nat) (inp : PsbtInput)
    (network : Network)
    (h : ∀ hi : i < p.inputs.length,
      resolveUtxo p.unsigned_tx i inp =
        resolveUtxo p.unsigned_tx i (p.inputs.get ⟨i, hi⟩)) :
    inputAddresses (setInput p i inp) network = inputAddresses p network := by
  show ((p.inputs.set i inp).enum.filterMap
      (fun x => (resolveUtxo p.unsigned_tx x.1 x.2).map
        (fun output => addressFromScript output.script_pubkey network))).filterMap id =
    (p.inputs.enum.filterMap
      (fun x => (resolveUtxo p.unsigned_tx x.1 x.2).map
        (fun output => addressFromScript output.script_pubkey network))).filterMap id
  rw [filterMap_enum_set _ p.inputs i inp (fun hi => by rw [h hi])]

theorem resolvedInputSum_setInput (p : Psbt) (i : Nat) (inp : PsbtInput)
    (h : ∀ hi : i < p.inputs.length,
      resolveUtxo p.unsigned_tx i inp =
        resolveUtxo p.unsigned_tx i (p.inputs.get ⟨i, hi⟩)) :
    resolvedInputSum (setInput p i inp) = resolvedInputSum p := by
  show ((p.inputs.set i inp).enum.filterMap
      (fun x => (resolveUtxo p.unsigned_tx x.1 x.2).map TxOut.value)).sum =
    (p.inputs.enum.filterMap
      (fun x => (resolveUtxo p.unsigned_tx x.1 x.2).map TxOut.value)).sum
  rw [filterMap_enum_set _ p.inputs i inp (fun hi => by rw [h hi])]

theorem parse_psbt_setInput (p : Psbt) (i : Nat) (inp : PsbtInput)
    (network : Option Network)
    (h : ∀ hi : i < p.inputs.length,
      resolveUtxo p.unsigned_tx i inp =
        resolveUtxo p.unsigned_tx i (p.inputs.get ⟨i, hi⟩)) :
    parse_psbt (setInput p i inp) network = parse_psbt p network := by
  have hs : inputAmount (setInput p i inp) = inputAmount p := by
    unfold inputAmount
    rw [resolvedInputSum_setInput p i inp h]
  have ha : ∀ n, inputAddresses (setInput p i inp) n = inputAddresses p n :=
    fun n => inputAddresses_setInput p i inp n h
  unfold parse_psbt
  simp only [show extract_tx (setInput p i inp) = extract_tx p from rfl, hs, ha]

/-! ## Claim theorems -/

/-- C1, counterexample: `cxUnderflow` is a structurally valid PSBT in which
every input's spent output is resolvable, `parse_psbt` succeeds, and yet the
returned fee does not satisfy `fee + sum(outputs) = sum(resolved inputs)` as
integers: the output total (1 sat) exceeds the input total (0 sat), so the
`u64` subtraction wraps to `2^64 - 1`. -/
theorem fee_identity_counterexample :
    (cxUnderflow.inputs.enum.all
      (fun x => (resolveUtxo cxUnderflow.unsigned_tx x.1 x.2).isSome)) = true ∧
    parse_psbt cxUnderflow none = ParseResult.ok cxUnderflowSummary ∧
    cxUnderflowSummary.fee + trueOutputSum cxUnderflow.unsigned_tx ≠
      resolvedInputSum cxUnderflow :=
  ⟨by decide, by decide, by decide⟩

/-- C1 (amended): for a structurally valid PSBT in which every input's spent
output is resolvable, whenever the exact resolved input total fits in 64 bits
and the output total does not exceed it, the fee returned by `parse_psbt`
satisfies `fee + sum(output values) = sum(resolved input values)` exactly, as
integers. -/
theorem fee_accounting_identity (p : Psbt) (network : Option Network)
    (s : Summary)
    (hres : ∀ i (hi : i < p.inputs.length),
      (resolveUtxo p.unsigned_tx i (p.inputs.get ⟨i, hi⟩)).isSome = true)
    (hfit : resolvedInputSum p < U64)
    (hle : trueOutputSum p.unsigned_tx ≤ resolvedInputSum p)
    (hok : parse_psbt p network = ParseResult.ok s) :
    s.fee + trueOutputSum p.unsigned_tx = resolvedInputSum p := by
  have hfee : s.fee = u64sub (inputAmount p) (outputSum p.unsigned_tx) := by
    simp only [parse_psbt, extract_tx] at hok
    split at hok
    · exact absurd hok (by simp)
    · split at hok
      · exact absurd hok (by simp)
      · split at hok
        · exact absurd hok (by simp)
        · injection hok with h
          rw [← h]
  rw [hfee]
  unfold u64sub inputAmount outputSum
  have hU : U64 = 18446744073709551616 := by norm_num [U64]
  rw [hU] at hfit ⊢
  omega

/-- C1 witness: the amended identity evaluated on the spec's section 8
scenario PSBT (10000 sat in, 9000 + 500 sat out, fee 500). -/
theorem fee_accounting_identity_witness :
    goodSummary.fee + trueOutputSum goodPsbt.unsigned_tx =
      resolvedInputSum goodPsbt :=
  fee_accounting_identity goodPsbt none goodSummary (by decide) (by decide)
    (by decide) (by decide)

/-- C2: the claim that an output total strictly exceeding the resolved input
total fails with an InvalidAmountError is contradicted by the code: on
`cxExcess` (100 sat resolved in, 600 sat out) `parse_psbt` succeeds and
returns the wrapped fee `2^64 - 500`. -/
theorem fee_wraps_instead_of_invalid_amount_error :
    resolvedInputSum cxExcess < trueOutputSum cxExcess.unsigned_tx ∧
    parse_psbt cxExcess none = ParseResult.ok cxExcessSummary ∧
    cxExcessSummary.fee = U64 - 500 :=
  ⟨by decide, by decide, rfl⟩

/-- C3: the claim that an unresolvable input makes summarization fail with an
IncompleteDataError is contradicted by the code: on `cxPartial` input 0 does
not resolve, yet `parse_psbt` succeeds and computes the fee `600` from the one
input that did resolve (1000 sat in, 400 sat out). -/
theorem fee_computed_from_partial_inputs :
    resolveUtxo cxPartial.unsigned_tx 0 (cxPartial.inputs.getD 0 default) =
      none ∧
    parse_psbt cxPartial none = ParseResult.ok cxPartialSummary ∧
    cxPartialSummary.fee = 600 :=
  ⟨by decide, by decide, rfl⟩

/-- C4: when input `i` carries a witness-UTXO record, resolution returns that
record's script and value, whatever the non-witness-UTXO field holds - and
the whole `parse_psbt` result (address derivation and fee computation alike)
is unchanged by replacing the non-witness-UTXO of that input with anything,
so the positional lookup is consulted only when the witness-UTXO is absent. -/
theorem witness_utxo_preferred (p : Psbt) (i : Nat) (w : TxOut)
    (nw : Option Transaction) (network : Option Network)
    (h : (p.inputs.getD i default).witness_utxo = some w) :
    resolveUtxo p.unsigned_tx i (p.inputs.getD i default) = some w ∧
    parse_psbt (setInput p i ⟨some w, nw⟩) network = parse_psbt p network := by
  have hres : ∀ (inp : PsbtInput), inp.witness_utxo = some w →
      ∀ (tx : Transaction) (j : Nat), resolveUtxo tx j inp = some w := by
    intro inp hw tx j
    unfold resolveUtxo
    rw [hw]
    rfl
  refine ⟨hres _ h _ _, ?_⟩
  apply parse_psbt_setInput
  intro hi
  have hg : p.inputs.getD i default = p.inputs.get ⟨i, hi⟩ := by
    simp [List.getD, List.getElem?_eq_getElem hi]
  rw [hres ⟨some w, nw⟩ rfl, hres (p.inputs.get ⟨i, hi⟩) (by rw [← hg]; exact h)]

/-- C4 witness: on the section 8 scenario PSBT, whose single input carries a
10000 sat witness-UTXO, resolution returns that record and attaching a
non-witness-UTXO (`junkTx`, whose output 0 is worth 77 sat) to the same input
changes nothing in the parse result. -/
theorem witness_utxo_preferred_witness :
    resolveUtxo goodPsbt.unsigned_tx 0 (goodPsbt.inputs.getD 0 default) =
      some ⟨10000, wpkhScript⟩ ∧
    parse_psbt (setInput goodPsbt 0 ⟨some ⟨10000, wpkhScript⟩, some junkTx⟩)
      none = parse_psbt goodPsbt none :=
  witness_utxo_preferred goodPsbt 0 ⟨10000, wpkhScript⟩ (some junkTx) none rfl

/-- C5: when input `i` has no witness-UTXO and its non-witness-UTXO previous
transaction has fewer outputs than the input's prevout index requires, the
checked lookup resolves to `none` (no out-of-range read, no crash), and the
whole parse behaves exactly as if that input simply carried no UTXO data at
all: every other input is processed unchanged. -/
theorem out_of_range_prevout_fails_alone (p : Psbt) (i : Nat)
    (prev : Transaction) (network : Option Network)
    (hw : (p.inputs.getD i default).witness_utxo = none)
    (hnw : (p.inputs.getD i default).non_witness_utxo = some prev)
    (hoob : prev.output.length ≤
      (p.unsigned_tx.input.getD i ⟨⟨[], 0⟩⟩).previous_output.vout) :
    resolveUtxo p.unsigned_tx i (p.inputs.getD i default) = none ∧
    parse_psbt (setInput p i default) network = parse_psbt p network := by
  have h1 : resolveUtxo p.unsigned_tx i (p.inputs.getD i default) = none := by
    unfold resolveUtxo
    rw [hw, hnw]
    show prev.output.get?
      (p.unsigned_tx.input.getD i ⟨⟨[], 0⟩⟩).previous_output.vout = none
    exact List.get?_eq_none.mpr hoob
  refine ⟨h1, ?_⟩
  apply parse_psbt_setInput
  intro hi
  have hg : p.inputs.getD i default = p.inputs.get ⟨i, hi⟩ := by
    simp [List.getD, List.getElem?_eq_getElem hi]
  have h2 : resolveUtxo p.unsigned_tx i default = none := rfl
  rw [h2, ← hg, h1]

/-- C5 witness: on `gapPsbt`, input 1 (prevout index 5 into a one-output
previous transaction) resolves to `none`, and the parse result equals the one
obtained with input 1's maps emptied: input 0 is still processed. -/
theorem out_of_range_prevout_fails_alone_witness :
    resolveUtxo gapPsbt.unsigned_tx 1 (gapPsbt.inputs.getD 1 default) = none ∧
    parse_psbt (setInput gapPsbt 1 default) none = parse_psbt gapPsbt none :=
  out_of_range_prevout_fails_alone gapPsbt 1 ⟨[], [⟨700, wpkhScript2⟩]⟩ none
    rfl rfl (by decide)

/-- C6: the claim that an unrepresentable output script is tolerated and
marked is contradicted by the code: on `cxOpReturn`, whose output 1 is an
`OP_RETURN` script matching no address template, the `pay_to_info` loop calls
`Address::from_script(..).unwrap()` on `None` and the call panics instead of
producing a summary. -/
theorem unrepresentable_output_panics :
    addressFromScript opReturnScript Network.bitcoin = none ∧
    parse_psbt cxOpReturn none = ParseResult.panic PanicKind.unwrapNone :=
  ⟨by decide, by decide⟩

/-- C7: the claim that an unrecognized network selector fails with an
UnknownNetworkError is contradicted by the lambda entry point: for the
unrecognized selector "foo", `deserialize_network` does error, but
`function_handler`'s network handling (`parse().unwrap_or(Network::Testnet)`,
main.rs line 161) silently substitutes the testnet default instead of
failing. -/
theorem unknown_network_silently_becomes_testnet :
    networkFromStr fooStr = none ∧
    deserialize_network (some fooStr) = Except.error () ∧
    handlerNetwork (some fooStr) = some Network.testnet :=
  ⟨by decide, rfl, by decide⟩

/-- C8: the `input_addresses` field equals the spec-side description
`specInputAddresses`: one traversal of the inputs in transaction order whose
entry for input `i` is present exactly when the spent output resolves and its
script derives an address - unresolvable entries are omitted rather than
replaced by a placeholder, no deduplication is performed, and the list is at
most as long as the input count. -/
theorem input_addresses_follow_spec (p : Psbt) (network : Network) :
    inputAddresses p network = specInputAddresses p network ∧
    (inputAddresses p network).length ≤ p.inputs.length := by
  have he : inputAddresses p network = specInputAddresses p network := by
    unfold inputAddresses specInputAddresses
    rw [List.filterMap_filterMap]
    congr 1
    funext x
    cases resolveUtxo p.unsigned_tx x.1 x.2 <;> rfl
  refine ⟨he, ?_⟩
  rw [he]
  unfold specInputAddresses
  calc (p.inputs.enum.filterMap _).length
      ≤ p.inputs.enum.length := List.length_filterMap_le _ _
    _ = p.inputs.length := List.enum_length

/-- C9: whenever `parse_psbt` succeeds, the summary's `send_address` is the
address derived under the selected network from the script-pubkey of the
embedded transaction's output 0, and `total_amount` is exactly that output's
value in satoshis, however many outputs the transaction has. -/
theorem send_address_total_amount_from_output0 (p : Psbt)
    (network : Option Network) (s : Summary)
    (hok : parse_psbt p network = ParseResult.ok s) :
    ∃ o, p.unsigned_tx.output.get? 0 = some o ∧
      s.total_amount = o.value ∧
      addressFromScript o.script_pubkey (network.getD Network.bitcoin) =
        some s.send_address := by
  simp only [parse_psbt, extract_tx] at hok
  split at hok
  · exact absurd hok (by simp)
  · next o hget =>
    split at hok
    · exact absurd hok (by simp)
    · next a haddr =>
      split at hok
      · exact absurd hok (by simp)
      · next pinfo hpay =>
        injection hok with h
        exact ⟨o, hget, by rw [← h], by rw [haddr, ← h]⟩

/-- C9 witness: on the section 8 scenario PSBT, output 0 is the 9000 sat
output; its address is the summary's send address and 9000 its total
amount. -/
theorem send_address_total_amount_from_output0_witness :
    ∃ o, goodPsbt.unsigned_tx.output.get? 0 = some o ∧
      goodSummary.total_amount = o.value ∧
      addressFromScript o.script_pubkey
        ((none : Option Network).getD Network.bitcoin) =
        some goodSummary.send_address :=
  send_address_total_amount_from_output0 goodPsbt none goodSummary (by decide)

/-- C10: `parse_psbt` unconditionally indexes output 0 of the embedded
transaction: when the transaction has no outputs the call ends in the
out-of-bounds indexing panic (not a returned error result), and when it has
at least one output that panic cannot occur. -/
theorem output0_indexing_panics_iff_no_outputs (p : Psbt)
    (network : Option Network) :
    (p.unsigned_tx.output = [] →
      parse_psbt p network = ParseResult.panic PanicKind.indexOutOfBounds) ∧
    (p.unsigned_tx.output ≠ [] →
      parse_psbt p network ≠ ParseResult.panic PanicKind.indexOutOfBounds) := by
  constructor
  · intro h
    simp only [parse_psbt, extract_tx, h]
    rfl
  · intro h
    have h0 : ∃ o, p.unsigned_tx.output.get? 0 = some o := by
      cases hc : p.unsigned_tx.output with
      | nil => exact absurd hc h
      | cons a l => exact ⟨a, rfl⟩
    obtain ⟨o, ho⟩ := h0
    simp only [parse_psbt, extract_tx, ho]
    split
    · simp
    · split
      · simp
      · simp

/-- C10 witness: the zero-output PSBT panics on the output-0 indexing, while
the section 8 scenario PSBT (two outputs) does not. -/
theorem output0_indexing_panics_iff_no_outputs_witness :
    parse_psbt emptyOutPsbt none =
      ParseResult.panic PanicKind.indexOutOfBounds ∧
    parse_psbt goodPsbt none ≠
      ParseResult.panic PanicKind.indexOutOfBounds :=
  ⟨(output0_indexing_panics_iff_no_outputs emptyOutPsbt none).1 rfl,
   (output0_indexing_panics_iff_no_outputs goodPsbt none).2 (by decide)⟩
